import Mathlib

/-!
Verification of the Agent Workflow Orchestration Engine
(backend/app/services/agent_orchestrator.py, agent_context_builder.py,
models/agent_execution.py) against its natural-language specification.

The Python source is shallowly embedded: pure helpers become Lean
functions; the orchestrator's stateful workflow loop becomes explicit
state passing over a `LoopState`; external effects (subprocess results,
provider responses, review verdicts) are supplied as explicit outcome
scripts; Python exceptions become `Except`.  Text is modelled as
`List Char` where the byte-stream decoding logic matters.
-/

namespace AgentRangers

/-! ## Character and text utilities

Mirrors of the Python text-cleaning code used by the orchestrator:
ANSI escape stripping (re.sub of the pattern ESC ([@-Z\-_] | CSI)),
control-character removal, Python str.strip(), and str.split on a
newline.  Strings are modelled as `List Char`. -/

/-- The ASCII escape character 0x1B. -/
def escChar : Char := Char.ofNat 27

/-- The opening brace character 0x7B, named to keep JSON text readable. -/
def lbrace : Char := Char.ofNat 123

/-- The closing brace character 0x7D. -/
def rbrace : Char := Char.ofNat 125

/-- CSI parameter bytes 0x30-0x3F, the regex class [0-?]. -/
def isCsiParam (c : Char) : Bool := 0x30 ≤ c.toNat && c.toNat ≤ 0x3F

/-- CSI intermediate bytes 0x20-0x2F (space through slash). -/
def isCsiInter (c : Char) : Bool := 0x20 ≤ c.toNat && c.toNat ≤ 0x2F

/-- CSI final bytes 0x40-0x7E, the regex class [@-~]. -/
def isCsiFinal (c : Char) : Bool := 0x40 ≤ c.toNat && c.toNat ≤ 0x7E

/-- Two-character escape finals, the regex class [@-Z\-_]:
0x40-0x5A or 0x5C-0x5F. -/
def isFeFinal (c : Char) : Bool :=
  (0x40 ≤ c.toNat && c.toNat ≤ 0x5A) || (0x5C ≤ c.toNat && c.toNat ≤ 0x5F)

/-- Consume a CSI escape tail after ESC [ : parameter bytes, then
intermediate bytes, then one final byte; `none` when the pattern does
not match (mirroring that re.sub leaves unmatched text in place). -/
def matchCsiTail (l : List Char) : Option (List Char) :=
  let l1 := l.dropWhile isCsiParam
  let l2 := l1.dropWhile isCsiInter
  match l2 with
  | c :: rest => if isCsiFinal c then some rest else none
  | [] => none

/-- Fuel-driven worker for `stripAnsi`; fuel is an upper bound on the
number of characters inspected, so `length + 1` always suffices. -/
def stripAnsiGo : Nat → List Char → List Char
  | 0, l => l
  | _ + 1, [] => []
  | fuel + 1, c :: rest =>
    if c = escChar then
      match rest with
      | [] => [c]
      | d :: rest2 =>
        if d = '[' then
          match matchCsiTail rest2 with
          | some rest3 => stripAnsiGo fuel rest3
          | none => c :: stripAnsiGo fuel rest
        else if isFeFinal d then stripAnsiGo fuel rest2
        else c :: stripAnsiGo fuel rest
    else c :: stripAnsiGo fuel rest

/-- Remove ANSI escape sequences, the embedding of
re.sub of ESC ([@-Z\-_] | [ CSI ) applied by the orchestrator to every
decoded chunk (agent_orchestrator.py, `process_pty_output`). -/
def stripAnsi (l : List Char) : List Char := stripAnsiGo (l.length + 1) l

/-- Control characters removed by the second re.sub:
0x00-0x08, 0x0B, 0x0C, 0x0E-0x1F and 0x7F (newlines and tabs kept). -/
def isRemovedCtl (c : Char) : Bool :=
  let n := c.toNat
  n ≤ 8 || n = 0x0B || n = 0x0C || (0x0E ≤ n && n ≤ 0x1F) || n = 0x7F

/-- Remove the control characters listed in `isRemovedCtl`. -/
def stripCtl (l : List Char) : List Char := l.filter (fun c => !isRemovedCtl c)

/-- Full chunk cleaning as done in `process_pty_output`: ANSI escapes
stripped first, then control characters removed. -/
def cleanText (l : List Char) : List Char := stripCtl (stripAnsi l)

/-- Python str.strip() default whitespace (ASCII part). -/
def isPyWs (c : Char) : Bool :=
  c = ' ' || c = '\t' || c = '\n' || c = '\r' || c.toNat = 0x0B || c.toNat = 0x0C

/-- Python str.strip(): drop whitespace from both ends. -/
def trimWs (l : List Char) : List Char :=
  ((l.dropWhile isPyWs).reverse.dropWhile isPyWs).reverse

/-- Python str.split on a newline: always returns at least one piece,
the trailing piece being the text after the last newline. -/
def splitOnNl : List Char → List (List Char)
  | [] => [[]]
  | c :: rest =>
    if c = '\n' then [] :: splitOnNl rest
    else
      match splitOnNl rest with
      | [] => [[c]]
      | l :: ls => (c :: l) :: ls

/-- Boolean prefix test on character lists. -/
def isPrefixL : List Char → List Char → Bool
  | [], _ => true
  | _ :: _, [] => false
  | a :: as, b :: bs => a = b && isPrefixL as bs

/-- Split a list at the first occurrence of `pat` (nonempty): returns
the text before the occurrence and the text after it, or `none` when
`pat` does not occur.  Mirrors re.search locating the leftmost match. -/
def findSub (pat : List Char) : List Char → Option (List Char × List Char)
  | [] => none
  | c :: rest =>
    if isPrefixL pat (c :: rest) then some ([], (c :: rest).drop pat.length)
    else
      match findSub pat rest with
      | some (pre, post) => some (c :: pre, post)
      | none => none

/-- Concatenate a list of character lists, the embedding of
str.join with an empty separator. -/
def joinL (ls : List (List Char)) : List Char := ls.foldl (· ++ ·) []

/-! ## JSON values and the embedding of json.loads

The orchestrator calls Python json.loads in `parse_stream_json_line`
and `_parse_review_result`.  json.loads is embedded as a recursive
descent JSON reader over `List Char`.  Numbers are modelled as
integers (no event field inspected by the orchestrator is a float) and
the \u string escape is not modelled (treated as a parse failure);
neither restriction is exercised by any input in this development. -/

/-- JSON values as produced by json.loads. -/
inductive Json where
  | jnull : Json
  | jbool : Bool → Json
  | jnum : Int → Json
  | jstr : List Char → Json
  | jarr : List Json → Json
  | jobj : List (List Char × Json) → Json

/-- JSON insignificant whitespace. -/
def isJsonWs (c : Char) : Bool := c = ' ' || c = '\t' || c = '\n' || c = '\r'

/-- Skip JSON whitespace. -/
def skipWs (l : List Char) : List Char := l.dropWhile isJsonWs

/-- Decode one backslash escape inside a JSON string; `none` for
escapes the model does not support. -/
def unescapeChar (c : Char) : Option Char :=
  if c = '"' then some '"'
  else if c = '\\' then some '\\'
  else if c = '/' then some '/'
  else if c = 'b' then some (Char.ofNat 8)
  else if c = 'f' then some (Char.ofNat 12)
  else if c = 'n' then some '\n'
  else if c = 'r' then some '\r'
  else if c = 't' then some '\t'
  else none

/-- Parse the body of a JSON string after the opening quote; returns
the decoded characters and the input after the closing quote. -/
def parseStringBody : Nat → List Char → Option (List Char × List Char)
  | 0, _ => none
  | _ + 1, [] => none
  | fuel + 1, c :: rest =>
    if c = '"' then some ([], rest)
    else if c = '\\' then
      match rest with
      | [] => none
      | e :: rest2 =>
        match unescapeChar e with
        | some ch =>
          match parseStringBody fuel rest2 with
          | some (s, r) => some (ch :: s, r)
          | none => none
        | none => none
    else
      match parseStringBody fuel rest with
      | some (s, r) => some (c :: s, r)
      | none => none

/-- Parse a run of decimal digits into a natural number. -/
def parseDigits : List Char → Option (Nat × List Char)
  | l =>
    let digits := l.takeWhile Char.isDigit
    if digits = [] then none
    else some (digits.foldl (fun acc c => acc * 10 + (c.toNat - 48)) 0, l.dropWhile Char.isDigit)

mutual

/-- Parse one JSON value; returns the value and the remaining input. -/
def parseValue : Nat → List Char → Option (Json × List Char)
  | 0, _ => none
  | fuel + 1, l =>
    match skipWs l with
    | [] => none
    | c :: rest =>
      if c = '"' then
        match parseStringBody (fuel + 1) rest with
        | some (s, r) => some (Json.jstr s, r)
        | none => none
      else if c = lbrace then parseObjRest fuel rest
      else if c = '[' then parseArrRest fuel rest
      else if c = 't' then
        if isPrefixL ['r', 'u', 'e'] rest then some (Json.jbool true, rest.drop 3) else none
      else if c = 'f' then
        if isPrefixL ['a', 'l', 's', 'e'] rest then some (Json.jbool false, rest.drop 4) else none
      else if c = 'n' then
        if isPrefixL ['u', 'l', 'l'] rest then some (Json.jnull, rest.drop 3) else none
      else if c = '-' then
        match parseDigits rest with
        | some (n, r) => some (Json.jnum (-(n : Int)), r)
        | none => none
      else if c.isDigit then
        match parseDigits (c :: rest) with
        | some (n, r) => some (Json.jnum (n : Int), r)
        | none => none
      else none

/-- Parse the remainder of a JSON object after the opening brace. -/
def parseObjRest : Nat → List Char → Option (Json × List Char)
  | 0, _ => none
  | fuel + 1, l =>
    match skipWs l with
    | [] => none
    | c :: rest =>
      if c = rbrace then some (Json.jobj [], rest)
      else
        match parseMembers fuel (c :: rest) with
        | some (fields, r) => some (Json.jobj fields, r)
        | none => none

/-- Parse one or more key-value members of a JSON object, consuming
the closing brace. -/
def parseMembers : Nat → List Char → Option (List (List Char × Json) × List Char)
  | 0, _ => none
  | fuel + 1, l =>
    match skipWs l with
    | [] => none
    | c :: rest =>
      if c = '"' then
        match parseStringBody (fuel + 1) rest with
        | some (key, r1) =>
          match skipWs r1 with
          | ':' :: r2 =>
            match parseValue fuel r2 with
            | some (v, r3) =>
              match skipWs r3 with
              | ',' :: r4 =>
                match parseMembers fuel r4 with
                | some (ms, r) => some ((key, v) :: ms, r)
                | none => none
              | c2 :: r4 => if c2 = rbrace then some ([(key, v)], r4) else none
              | [] => none
            | none => none
          | _ => none
        | none => none
      else none

/-- Parse the remainder of a JSON array after the opening bracket. -/
def parseArrRest : Nat → List Char → Option (Json × List Char)
  | 0, _ => none
  | fuel + 1, l =>
    match skipWs l with
    | [] => none
    | c :: rest =>
      if c = ']' then some (Json.jarr [], rest)
      else
        match parseElems fuel (c :: rest) with
        | some (elems, r) => some (Json.jarr elems, r)
        | none => none

/-- Parse one or more array elements, consuming the closing bracket. -/
def parseElems : Nat → List Char → Option (List Json × List Char)
  | 0, _ => none
  | fuel + 1, l =>
    match parseValue fuel l with
    | some (v, r1) =>
      match skipWs r1 with
      | ',' :: r2 =>
        match parseElems fuel r2 with
        | some (vs, r) => some (v :: vs, r)
        | none => none
      | ']' :: r2 => some ([v], r2)
      | _ => none
    | none => none

end

/-- Embedding of Python json.loads: parse a complete JSON value and
require the rest of the input to be whitespace; `none` models a raised
JSONDecodeError. -/
def jsonLoads (l : List Char) : Option Json :=
  match parseValue (2 * l.length + 8) l with
  | some (v, rest) => if skipWs rest = [] then some v else none
  | none => none

/-- Python truthiness of a decoded JSON value, used by the
orchestrator in checks such as `if event:` and
`o.output_structured` in a boolean position. -/
def jsonTruthy : Json → Bool
  | Json.jnull => false
  | Json.jbool b => b
  | Json.jnum n => n != 0
  | Json.jstr s => !s.isEmpty
  | Json.jarr xs => !xs.isEmpty
  | Json.jobj fs => !fs.isEmpty

/-- Python dict.get on a decoded JSON object (`none` when the value is
not an object or lacks the key).  json.loads keeps the last binding
for a duplicated key, hence the reversed lookup. -/
def jsonGet (j : Json) (key : List Char) : Option Json :=
  match j with
  | Json.jobj fields =>
    match fields.reverse.find? (fun kv => kv.1 == key) with
    | some kv => some kv.2
    | none => none
  | _ => none

/-! ## PTY stream decoding

Embedding of `HybridOrchestrator._run_cli_with_streaming_pty`
(agent_orchestrator.py): the read loop collects raw chunks; after the
child exits, every chunk is cleaned and split into lines, complete
lines are parsed as one JSON record each, parse failures stay only in
the raw transcript, the trailing buffer is flushed with a best-effort
parse, and classified text fragments are concatenated into the final
content.  The milestone batching and WebSocket broadcasting touch no
decoded state and are not modelled. -/

/-- Shorthand turning a string literal into the character list the
decoder works over. -/
def strL (s : String) : List Char := s.toList

/-- Embedding of the inner `parse_stream_json_line`: strip the line,
treat an empty line as no record, otherwise json.loads with parse
failure mapped to `none`. -/
def parseStreamJsonLine (line : List Char) : Option Json :=
  let line := trimWs line
  if line.isEmpty then none else jsonLoads line

/-- Decoder state: the incomplete-line buffer, the structured events
gathered so far, and the classified text fragments. -/
structure PtyState where
  jsonBuffer : List Char
  events : List Json
  textParts : List (List Char)

/-- Text-fragment extraction for one parsed record, the embedding of
the `type` classification in `process_pty_output`: assistant messages
contribute their text blocks, content_block_delta records contribute
their text delta, result records contribute a nonempty result
string. -/
def extractText (event : Json) : List (List Char) :=
  match jsonGet event (strL "type") with
  | some (Json.jstr t) =>
    if t == strL "assistant" then
      match jsonGet event (strL "message") with
      | some (Json.jobj mfields) =>
        match jsonGet (Json.jobj mfields) (strL "content") with
        | some (Json.jarr blocks) =>
          blocks.filterMap (fun b =>
            match jsonGet b (strL "type") with
            | some (Json.jstr bt) =>
              if bt == strL "text" then
                match jsonGet b (strL "text") with
                | some (Json.jstr s) => some s
                | _ => some []
              else none
            | _ => none)
        | _ => []
      | _ => []
    else if t == strL "content_block_delta" then
      match jsonGet event (strL "delta") with
      | some d =>
        match jsonGet d (strL "type") with
        | some (Json.jstr dt) =>
          if dt == strL "text_delta" then
            match jsonGet d (strL "text") with
            | some (Json.jstr s) => [s]
            | _ => [[]]
          else []
        | _ => []
      | none => []
    else if t == strL "result" then
      match jsonGet event (strL "result") with
      | some (Json.jstr s) => if s.isEmpty then [] else [s]
      | _ => []
    else []
  | _ => []

/-- Process one complete line: records that parse and are truthy are
kept as structured events and contribute text; everything else is
retained only in the raw transcript. -/
def processLine (st : PtyState) (line : List Char) : PtyState :=
  match parseStreamJsonLine line with
  | some e =>
    if jsonTruthy e then
      { st with events := st.events ++ [e], textParts := st.textParts ++ extractText e }
    else st
  | none => st

/-- Embedding of `process_pty_output` for one chunk: clean it, append
to the line buffer, split on newlines, keep the incomplete last piece
buffered, and process each complete line. -/
def processPtyOutput (st : PtyState) (data : List Char) : PtyState :=
  let clean := cleanText data
  let combined := st.jsonBuffer ++ clean
  let lines := splitOnNl combined
  let newBuf := lines.getLastD []
  lines.dropLast.foldl processLine { st with jsonBuffer := newBuf }

/-- Full decoding of a finished PTY session from its raw chunks:
process every chunk, flush the trailing buffer as a best-effort parse
(kept as an event only, never as text), join the text fragments,
fall back to the cleaned raw transcript when no classified text was
produced, and strip the result. -/
def decodeStream (chunks : List (List Char)) : List Char × List Json :=
  let st := chunks.foldl processPtyOutput ⟨[], [], []⟩
  let st :=
    if !(trimWs st.jsonBuffer).isEmpty then
      match parseStreamJsonLine st.jsonBuffer with
      | some e => if jsonTruthy e then { st with events := st.events ++ [e] } else st
      | none => st
    else st
  let fullContent := joinL st.textParts
  let fullContent := if fullContent.isEmpty then cleanText (joinL chunks) else fullContent
  (trimWs fullContent, st.events)

/-! ## Workflow phase table

Embedding of `AgentContextBuilder.get_workflow_phases`
(agent_context_builder.py lines 341-357): a dict of the three known
workflow types with `["development", "review"]` as the dict.get
default for every other key. -/

/-- The static workflow table of `get_workflow_phases`. -/
def workflowsTable : List (String × List String) :=
  [("development", ["architecture", "development", "review"]),
   ("quick_development", ["development", "review"]),
   ("architecture_only", ["architecture"])]

/-- Embedding of `get_workflow_phases`: table lookup with the
`["development", "review"]` default. -/
def get_workflow_phases (workflow_type : String) : List String :=
  (workflowsTable.lookup workflow_type).getD ["development", "review"]

/-! ## Cancellation

Embedding of `HybridOrchestrator.cancel_execution`
(agent_orchestrator.py lines 250-281).  The status check precedes
every write, so the illegal-status branch raises before any mutation;
the model returns `Except.error` carrying no state there.  The
completion timestamp is modelled as an abstract `Nat` clock value. -/

/-- The slice of execution-plus-task state read and written by
`cancel_execution`: the execution status, its completion timestamp,
and the parent task's denormalized agent_status mirror. -/
structure CancelState where
  executionStatus : String
  executionCompletedAt : Option Nat
  taskAgentStatus : Option String
deriving DecidableEq

/-- Embedding of `cancel_execution`: raise unless the status is
pending or running; otherwise set status cancelled, stamp
completed_at, and clear the task's agent_status mirror. -/
def cancel_execution (now : Nat) (st : CancelState) : Except String CancelState :=
  if ¬ (st.executionStatus = "pending" ∨ st.executionStatus = "running") then
    Except.error "execution cannot be cancelled"
  else
    Except.ok { executionStatus := "cancelled",
                executionCompletedAt := some now,
                taskAgentStatus := none }

/-! ## CLI and provider backends

Embeddings of `_run_claude_cli_simple` (lines 592-663), `_cli_execute`
(lines 1161-1242) and `_api_call` (lines 1002-1091).  The outcome of
the external process or provider call is supplied explicitly; the
deterministic simulated responses are represented by a tagged
constructor since only their identity (simulated versus real, keyed on
the phase name) is inspected anywhere. -/

/-- Outcome of one external CLI invocation as observed by the
orchestrator: a successful transcript, a wall-clock timeout, or a
nonzero-exit failure. -/
inductive CliOutcome where
  | success : List Char → CliOutcome
  | timeout : CliOutcome
  | failure : String → CliOutcome

/-- Phase content, either real backend output or the deterministic
simulated response keyed on the phase name. -/
inductive PhaseContent where
  | real : List Char → PhaseContent
  | simulated : String → PhaseContent
deriving DecidableEq

/-- Embedding of `_run_claude_cli_simple` (used by the architecture
phase): a missing CLI binary raises, a timeout raises, a nonzero exit
raises; a successful transcript is ANSI/control-cleaned and
stripped. -/
def run_claude_cli_simple (claudeFound : Bool) (outcome : CliOutcome) :
    Except String (List Char) :=
  if !claudeFound then Except.error "Claude CLI not found"
  else
    match outcome with
    | CliOutcome.success c => Except.ok (trimWs (cleanText c))
    | CliOutcome.timeout => Except.error "Claude CLI timed out"
    | CliOutcome.failure m => Except.error ("Claude CLI failed: " ++ m)

/-- Result of `_cli_execute`: the development content plus whether the
simulated fallback produced it. -/
structure CliExecResult where
  content : PhaseContent
  simulated : Bool
deriving DecidableEq

/-- The `_simulated_cli_execute` fallback result. -/
def simulated_cli_execute : CliExecResult :=
  { content := PhaseContent.simulated "development", simulated := true }

/-- Embedding of `_cli_execute` (used by the development phase): a
missing CLI falls back to simulation, a successful PTY run returns
real content, and both asyncio.TimeoutError and every other exception
are caught and replaced by the simulated fallback — `_cli_execute`
never raises, hence the `Except` result is always `ok`. -/
def cli_execute (claudeFound : Bool) (outcome : CliOutcome) :
    Except String CliExecResult :=
  if !claudeFound then Except.ok simulated_cli_execute
  else
    match outcome with
    | CliOutcome.success c => Except.ok { content := PhaseContent.real c, simulated := false }
    | CliOutcome.timeout => Except.ok simulated_cli_execute
    | CliOutcome.failure _ => Except.ok simulated_cli_execute

/-- Observable behaviour of one provider backend for `_api_call`: the
health check answer and the outcome of the completion call. -/
structure ProviderScript where
  healthOk : Bool
  callOutcome : Except String (List Char × Option Nat)

/-- Embedding of `_api_call` (used by the review phase): a failed
health check returns the simulated response, a successful call returns
real content with its token count, and any provider exception is
caught and replaced by the simulated response — `_api_call` never
raises. -/
def api_call (phase : String) (p : ProviderScript) : PhaseContent × Option Nat :=
  if !p.healthOk then (PhaseContent.simulated phase, none)
  else
    match p.callOutcome with
    | Except.ok (c, t) => (PhaseContent.real c, t)
    | Except.error _ => (PhaseContent.simulated phase, none)

/-! ## The workflow loop

Embedding of `HybridOrchestrator.execute_workflow`
(agent_orchestrator.py lines 287-478).  Database flushes, WebSocket
broadcasts, activity records and the filesystem edits of
`_apply_review_fixes` carry no state read back by the loop and are not
modelled.  Each phase method appends an Output record and either
returns or marks that record failed and re-raises; the outcomes of the
external calls inside the phases are supplied by a `WorkflowScript`
(one entry per invocation, in invocation order). -/

/-- One persisted Output record: its phase, the execution iteration at
creation time, and its terminal status. -/
structure OutputRec where
  phase : String
  iteration : Nat
  status : String
deriving DecidableEq

/-- Outcomes of the successive phase-internal calls: the architecture
CLI call, the nth development run, and the nth review run (the review
outcome carrying the parsed verdict `review_result.get("status")`). -/
structure WorkflowScript where
  archOutcome : Except String Unit
  devOutcome : Nat → Except String Unit
  reviewOutcome : Nat → Except String String

/-- Mutable loop state of `execute_workflow`: the execution iteration
counter and bound, the persisted outputs, and the invocation counters
for the scripted outcomes. -/
structure LoopState where
  iteration : Nat
  maxIterations : Nat
  devIdx : Nat
  reviewIdx : Nat
  outputs : List OutputRec
deriving DecidableEq

/-- Embedding of `_run_architecture_phase`: append a completed Output
on success, or a failed Output and re-raise on failure. -/
def runArchM (script : WorkflowScript) (st : LoopState) :
    Except (String × LoopState) LoopState :=
  match script.archOutcome with
  | Except.ok _ =>
    Except.ok { st with outputs := st.outputs ++ [⟨"architecture", st.iteration, "completed"⟩] }
  | Except.error m =>
    Except.error (m, { st with outputs := st.outputs ++ [⟨"architecture", st.iteration, "failed"⟩] })

/-- Embedding of `_run_development_phase`: consume the next scripted
development outcome, append a completed Output on success, or a failed
Output and re-raise on failure. -/
def runDevM (script : WorkflowScript) (st : LoopState) :
    Except (String × LoopState) LoopState :=
  match script.devOutcome st.devIdx with
  | Except.ok _ =>
    Except.ok { st with devIdx := st.devIdx + 1,
                        outputs := st.outputs ++ [⟨"development", st.iteration, "completed"⟩] }
  | Except.error m =>
    Except.error (m, { st with
      devIdx := st.devIdx + 1,
      outputs := st.outputs ++ [⟨"development", st.iteration, "failed"⟩] })

/-- Embedding of `_run_review_phase`: consume the next scripted review
outcome, append a completed Output and return the parsed verdict on
success, or append a failed Output and re-raise. -/
def runReviewM (script : WorkflowScript) (st : LoopState) :
    Except (String × LoopState) (LoopState × String) :=
  match script.reviewOutcome st.reviewIdx with
  | Except.ok verdict =>
    Except.ok ({ st with
      reviewIdx := st.reviewIdx + 1,
      outputs := st.outputs ++ [⟨"review", st.iteration, "completed"⟩] }, verdict)
  | Except.error m =>
    Except.error (m, { st with
      reviewIdx := st.reviewIdx + 1,
      outputs := st.outputs ++ [⟨"review", st.iteration, "failed"⟩] })

/-- One turn of the phase loop body (lines 337-406).  After a review
with verdict CHANGES_REQUESTED and iteration < max_iterations, the
iteration counter is incremented and development and review are re-run
exactly once; the second review's verdict is not examined again (the
source guards the re-run with a single `if`, not a loop). -/
def runPhaseStep (script : WorkflowScript) (phase : String) (st : LoopState) :
    Except (String × LoopState) LoopState :=
  if phase = "architecture" then runArchM script st
  else if phase = "development" then runDevM script st
  else if phase = "review" then
    match runReviewM script st with
    | Except.error e => Except.error e
    | Except.ok (st1, verdict) =>
      if verdict = "CHANGES_REQUESTED" then
        if st1.iteration < st1.maxIterations then
          let st2 := { st1 with iteration := st1.iteration + 1 }
          match runDevM script st2 with
          | Except.error e => Except.error e
          | Except.ok st3 =>
            match runReviewM script st3 with
            | Except.error e => Except.error e
            | Except.ok (st4, _) => Except.ok st4
        else Except.ok st1
      else Except.ok st1
  else Except.ok st

/-- The phase loop: run the phases in order, stopping at the first
raised error. -/
def runPhases (script : WorkflowScript) : List String → LoopState →
    Except (String × LoopState) LoopState
  | [], st => Except.ok st
  | phase :: rest, st =>
    match runPhaseStep script phase st with
    | Except.ok st1 => runPhases script rest st1
    | Except.error e => Except.error e

/-- The state carried by either branch of a loop-step result. -/
def stepState : Except (String × LoopState) LoopState → LoopState
  | Except.ok st => st
  | Except.error (_, st) => st

/-- The state carried by either branch of a review-phase result. -/
def reviewStepState : Except (String × LoopState) (LoopState × String) → LoopState
  | Except.ok (st, _) => st
  | Except.error (_, st) => st

/-- Execution record after `execute_workflow` returns or raises. -/
structure ExecutionModel where
  status : String
  iteration : Nat
  maxIterations : Nat
  errorMessage : Option String
  outputs : List OutputRec
deriving DecidableEq

/-- Embedding of `execute_workflow` for an execution started at
iteration 1: resolve the phase list, run the loop, and finalize —
completed on normal return, failed with the error message recorded
when a phase raised. -/
def execute_workflow (script : WorkflowScript) (workflowType : String)
    (maxIterations : Nat) : ExecutionModel :=
  let phases := get_workflow_phases workflowType
  match runPhases script phases ⟨1, maxIterations, 0, 0, []⟩ with
  | Except.ok st =>
    { status := "completed", iteration := st.iteration, maxIterations := maxIterations,
      errorMessage := none, outputs := st.outputs }
  | Except.error (msg, st) =>
    { status := "failed", iteration := st.iteration, maxIterations := maxIterations,
      errorMessage := some msg, outputs := st.outputs }

/-! ## Git delta computation

Embedding of `HybridOrchestrator._get_git_changed_files`
(agent_orchestrator.py lines 2171-2265), git-repository success path.
The snapshots hold the file lists reported by the three git plumbing
commands; the Python code converts them to sets before the set
algebra, so the computation is over `Finset String`. -/

/-- One git state capture: unstaged-modified files, staged files, and
untracked files, as produced by `_capture_git_state`. -/
structure GitSnapshot where
  modifiedFiles : List String
  stagedFiles : List String
  untrackedFiles : List String

/-- The created set: files untracked now that were not untracked in
the pre-capture (`current_untracked - pre_untracked`). -/
def gitCreated (pre cur : GitSnapshot) : Finset String :=
  cur.untrackedFiles.toFinset \ pre.untrackedFiles.toFinset

/-- The modified set: files modified or staged now that were not
modified or staged before, excluding currently untracked files
(`(current_modified | current_staged) - (pre_modified | pre_staged)
- current_untracked`). -/
def gitModified (pre cur : GitSnapshot) : Finset String :=
  ((cur.modifiedFiles.toFinset ∪ cur.stagedFiles.toFinset) \
      (pre.modifiedFiles.toFinset ∪ pre.stagedFiles.toFinset)) \
    cur.untrackedFiles.toFinset

/-- Specification-side description of the created files: the files
untracked now but not untracked before, stated as a filter rather than
a set difference. -/
def specNewUntracked (pre cur : GitSnapshot) : Finset String :=
  cur.untrackedFiles.toFinset.filter (fun f => f ∉ pre.untrackedFiles.toFinset)

/-- Specification-side description of the modified files: the files
modified-or-staged now, not modified-or-staged before, and not
currently untracked, stated as a filter. -/
def specNewlyModified (pre cur : GitSnapshot) : Finset String :=
  (cur.modifiedFiles.toFinset ∪ cur.stagedFiles.toFinset).filter
    (fun f => f ∉ pre.modifiedFiles.toFinset ∪ pre.stagedFiles.toFinset ∧
      f ∉ cur.untrackedFiles.toFinset)

/-! ## Review result parsing

Embedding of `HybridOrchestrator._parse_review_result`
(agent_orchestrator.py lines 2370-2387): extract the first
fenced json block via re.search, json.loads it, and on any failure
return a default APPROVED review structure. -/

/-- Embedding of the re.search for a fenced json block: locate the
first occurrence of a json fence opener, then the next fence closer,
and return the enclosed text with surrounding whitespace trimmed
(matching the lazy group between the two greedy whitespace runs). -/
def extractJsonBlock (content : List Char) : Option (List Char) :=
  match findSub (strL "```json") content with
  | none => none
  | some (_, rest) =>
    match findSub (strL "```") rest with
    | none => none
    | some (inner, _) => some (trimWs inner)

/-- The default review structure returned when no json block parses:
status APPROVED with empty issue lists. -/
def defaultReviewResult : Json :=
  Json.jobj
    [(strL "status", Json.jstr (strL "APPROVED")),
     (strL "summary",
       Json.jobj [(strL "overall_assessment", Json.jstr (strL "Review completed"))]),
     (strL "critical_issues", Json.jarr []),
     (strL "major_issues", Json.jarr []),
     (strL "minor_issues", Json.jarr [])]

/-- Embedding of `_parse_review_result`: the parsed fenced json block
when one parses, otherwise the default APPROVED structure. -/
def parse_review_result (content : List Char) : Json :=
  match extractJsonBlock content with
  | some inner =>
    match jsonLoads inner with
    | some j => j
    | none => defaultReviewResult
  | none => defaultReviewResult

/-- The Output fields written by `_run_review_phase` on its success
path (lines 979-987): status completed, the raw provider content kept
as output_content, and the parse result as output_structured. -/
structure ReviewOutputModel where
  status : String
  outputContent : List Char
  outputStructured : Option Json

/-- Review Output construction from the provider content, the success
path of `_run_review_phase`. -/
def reviewPhaseOutput (content : List Char) : ReviewOutputModel :=
  { status := "completed",
    outputContent := content,
    outputStructured := some (parse_review_result content) }

/-! ## Result summary

Embedding of `HybridOrchestrator._build_result_summary`
(agent_orchestrator.py lines 2389-2415) over the execution's Outputs
in creation order. -/

/-- The Output fields read by `_build_result_summary`. -/
structure SummaryOutput where
  phase : String
  tokensUsed : Option Nat
  durationMs : Option Nat
  filesCreated : Option (List String)
  outputStructured : Option Json

/-- The result_summary dictionary. -/
structure ResultSummaryModel where
  phasesCompleted : Nat
  iterations : Nat
  totalTokens : Nat
  totalDurationMs : Nat
  filesAffected : List String
  reviewStatus : Option Json

/-- Python truthiness of an optional structured result
(None is falsy, otherwise the JSON value's own truthiness). -/
def structTruthy (o : Option Json) : Bool :=
  match o with
  | some j => jsonTruthy j
  | none => false

/-- Embedding of `_build_result_summary`: sum tokens and durations
with missing values as 0, concatenate files_created lists in order,
and take the status field of the last review Output whose structured
result is truthy (the generator over `reversed(outputs)`). -/
def build_result_summary (iteration : Nat) (outputs : List SummaryOutput) :
    ResultSummaryModel :=
  { phasesCompleted := outputs.length,
    iterations := iteration,
    totalTokens := (outputs.map (fun o => o.tokensUsed.getD 0)).sum,
    totalDurationMs := (outputs.map (fun o => o.durationMs.getD 0)).sum,
    filesAffected := outputs.foldl (fun acc o => acc ++ o.filesCreated.getD []) [],
    reviewStatus :=
      match outputs.reverse.find? (fun o => o.phase == "review" && structTruthy o.outputStructured) with
      | some o =>
        match o.outputStructured with
        | some j => jsonGet j (strL "status")
        | none => none
      | none => none }

/-! ## Concrete scenario instances

Concrete scripts and inputs used to evaluate the embedded code on the
scenarios named by the specification. -/

/-- Review verdicts CHANGES_REQUESTED, CHANGES_REQUESTED, APPROVED in
invocation order — the specification's feedback-loop scenario. -/
def scenarioVerdicts (n : Nat) : String :=
  if n = 0 then "CHANGES_REQUESTED"
  else if n = 1 then "CHANGES_REQUESTED"
  else "APPROVED"

/-- Workflow script for the feedback-loop scenario: every phase call
succeeds and the reviews return `scenarioVerdicts`. -/
def scenarioScript : WorkflowScript :=
  { archOutcome := Except.ok (),
    devOutcome := fun _ => Except.ok (),
    reviewOutcome := fun n => Except.ok (scenarioVerdicts n) }

/-- Workflow script in which the development phase's CLI invocation
times out: `_cli_execute` swallows the timeout and returns the
simulated fallback, so the development phase outcome is the value of
`cli_execute` on a timeout — never an error. -/
def devTimeoutScript : WorkflowScript :=
  { archOutcome := Except.ok (),
    devOutcome := fun _ => (cli_execute true CliOutcome.timeout).map (fun _ => ()),
    reviewOutcome := fun _ => Except.ok "APPROVED" }

/-- Workflow script in which the architecture phase's CLI invocation
times out: `_run_claude_cli_simple` raises, so the phase outcome is
the error produced by `run_claude_cli_simple`. -/
def archTimeoutScript : WorkflowScript :=
  { archOutcome := (run_claude_cli_simple true CliOutcome.timeout).map (fun _ => ()),
    devOutcome := fun _ => Except.ok (),
    reviewOutcome := fun _ => Except.ok "APPROVED" }

/-- Workflow script in which the Claude CLI binary backing the
architecture phase is absent: `_run_claude_cli_simple` raises
"Claude CLI not found". -/
def archUnavailableScript : WorkflowScript :=
  { archOutcome := (run_claude_cli_simple false (CliOutcome.success [])).map (fun _ => ()),
    devOutcome := fun _ => Except.ok (),
    reviewOutcome := fun _ => Except.ok "APPROVED" }

/-- A review content with no fenced json block. -/
def plainReviewContent : List Char := strL "The implementation looks correct overall."

/-- A development Output touching a.py. -/
def summaryDevOutput : SummaryOutput :=
  { phase := "development", tokensUsed := some 10, durationMs := some 100,
    filesCreated := some ["a.py"], outputStructured := none }

/-- A review Output also touching a.py, with an APPROVED structured
result. -/
def summaryReviewOutput : SummaryOutput :=
  { phase := "review", tokensUsed := none, durationMs := some 50,
    filesCreated := some ["a.py"],
    outputStructured := some (Json.jobj [(strL "status", Json.jstr (strL "APPROVED"))]) }

/-- The complete JSON result line of the PTY-decoding scenario, after
cleaning. -/
def resultLine : List Char := strL "\x7b\"type\":\"result\",\"result\":\"ok\"\x7d"

/-- The structured event decoded from `resultLine`. -/
def resultEvent : Json :=
  Json.jobj [(strL "type", Json.jstr (strL "result")),
             (strL "result", Json.jstr (strL "ok"))]

/-- A raw PTY byte stream for the decoding scenario: ANSI color
escapes around the complete JSON result line, a newline, then a
partial trailing line that is not valid JSON. -/
def ptyScenarioChunk : List Char :=
  strL "\x1b[31m\x1b[1m\x7b\"type\":\"result\",\"result\":\"ok\"\x7d\n\x1b[32m\x7b\"type\":\"assi"

/-- The cleaned partial trailing line of `ptyScenarioChunk`. -/
def ptyScenarioPartial : List Char := strL "\x7b\"type\":\"assi"

/-- Pre-capture git snapshot of the delta scenario. -/
def gitPreSnapshot : GitSnapshot :=
  { modifiedFiles := ["old.py"], stagedFiles := [], untrackedFiles := ["scratch.txt"] }

/-- Post-capture git snapshot of the delta scenario: two new untracked
files and one newly modified tracked file. -/
def gitCurSnapshot : GitSnapshot :=
  { modifiedFiles := ["old.py", "app.py"], stagedFiles := [],
    untrackedFiles := ["scratch.txt", "new1.py", "new2.py"] }

/-! ## Theorems -/

/-- C10: for every workflow_type string that is not development,
quick_development, or architecture_only — including review_only,
which the specification lists as a valid workflow_type but omits from
the phase table — get_workflow_phases returns exactly
[development, review]; it never raises and never returns an empty
phase list. -/
theorem C10_workflow_phases_default :
    (∀ wt : String, wt ≠ "development" → wt ≠ "quick_development" →
      wt ≠ "architecture_only" →
      get_workflow_phases wt = ["development", "review"])
    ∧ (∀ wt : String, get_workflow_phases wt ≠ []) := by
  constructor
  · intro wt h1 h2 h3
    simp [get_workflow_phases, workflowsTable, List.lookup,
      beq_eq_false_iff_ne.mpr h1, beq_eq_false_iff_ne.mpr h2,
      beq_eq_false_iff_ne.mpr h3]
  · intro wt
    by_cases h1 : wt = "development"
    · simp [get_workflow_phases, workflowsTable, List.lookup, h1]
    by_cases h2 : wt = "quick_development"
    · simp [get_workflow_phases, workflowsTable, List.lookup, h2,
        beq_eq_false_iff_ne.mpr h1]
    by_cases h3 : wt = "architecture_only"
    · simp [get_workflow_phases, workflowsTable, List.lookup, h3,
        beq_eq_false_iff_ne.mpr h1, beq_eq_false_iff_ne.mpr h2]
    · simp [get_workflow_phases, workflowsTable, List.lookup,
        beq_eq_false_iff_ne.mpr h1, beq_eq_false_iff_ne.mpr h2,
        beq_eq_false_iff_ne.mpr h3]

/-- Witness for C10 at the workflow_type review_only. -/
theorem C10_workflow_phases_default_witness :
    get_workflow_phases "review_only" = ["development", "review"] :=
  C10_workflow_phases_default.1 "review_only" (by decide) (by decide) (by decide)

/-- C3: cancel_execution on an execution whose status is pending or
running yields status cancelled and clears the parent task's
agent_status mirror; on any other status it raises without mutating
the execution or the task (the model returns the error before any
state is produced, matching the source where the status check precedes
every write). -/
theorem C3_cancel_execution (now : Nat) (st : CancelState) :
    ((st.executionStatus = "pending" ∨ st.executionStatus = "running") →
      cancel_execution now st =
        Except.ok ⟨"cancelled", some now, none⟩)
    ∧ (st.executionStatus ≠ "pending" → st.executionStatus ≠ "running" →
      cancel_execution now st = Except.error "execution cannot be cancelled") := by
  constructor
  · intro h
    rw [cancel_execution, if_neg (not_not_intro h)]
  · intro h1 h2
    rw [cancel_execution, if_pos (not_or.mpr ⟨h1, h2⟩)]

/-- Witness for C3: a running execution is cancelled; a completed one
is rejected. -/
theorem C3_cancel_execution_witness :
    cancel_execution 5 ⟨"running", none, some "development"⟩ =
      Except.ok ⟨"cancelled", some 5, none⟩
    ∧ cancel_execution 5 ⟨"completed", some 1, none⟩ =
      Except.error "execution cannot be cancelled" :=
  ⟨(C3_cancel_execution 5 _).1 (Or.inr rfl),
   (C3_cancel_execution 5 _).2 (by decide) (by decide)⟩

/-- C4: for every pre-capture and post-capture snapshot in which N
files are untracked now but were not untracked before, and M files are
modified-or-staged now but were not before and are not currently
untracked, the computed created set has exactly N entries, the
computed modified set has exactly M entries, and the two sets are
disjoint. -/
theorem C4_git_delta (pre cur : GitSnapshot) (N M : Nat)
    (hN : (specNewUntracked pre cur).card = N)
    (hM : (specNewlyModified pre cur).card = M) :
    (gitCreated pre cur).card = N ∧ (gitModified pre cur).card = M ∧
      Disjoint (gitCreated pre cur) (gitModified pre cur) := by
  have hc : gitCreated pre cur = specNewUntracked pre cur := by
    ext f
    simp [gitCreated, specNewUntracked, Finset.mem_sdiff, Finset.mem_filter]
  have hm : gitModified pre cur = specNewlyModified pre cur := by
    ext f
    simp [gitModified, specNewlyModified, Finset.mem_sdiff, Finset.mem_filter,
      and_assoc]
  refine ⟨hc ▸ hN, hm ▸ hM, ?_⟩
  rw [Finset.disjoint_left]
  intro f hf hg
  exact (Finset.mem_sdiff.mp hg).2 (Finset.mem_sdiff.mp hf).1

/-- Witness for C4 on the concrete snapshots: two new untracked files,
one newly modified file, disjoint results. -/
theorem C4_git_delta_witness :
    (gitCreated gitPreSnapshot gitCurSnapshot).card = 2 ∧
    (gitModified gitPreSnapshot gitCurSnapshot).card = 1 ∧
    Disjoint (gitCreated gitPreSnapshot gitCurSnapshot)
      (gitModified gitPreSnapshot gitCurSnapshot) :=
  C4_git_delta gitPreSnapshot gitCurSnapshot 2 1 (by decide) (by decide)

/-- C6 counterexample: on a review content with no parseable JSON
block, the Output's output_structured is not null — _parse_review_result
substitutes a default APPROVED structure, so the structured field is
some defaultReviewResult. -/
theorem C6_counterexample :
    reviewPhaseOutput plainReviewContent =
      ⟨"completed", plainReviewContent, some defaultReviewResult⟩
    ∧ (reviewPhaseOutput plainReviewContent).outputStructured ≠ none := by
  refine ⟨rfl, ?_⟩
  simp [reviewPhaseOutput]

/-- C6 amended: for every review-phase output whose content contains
no parseable JSON block, the phase does not hard-fail — the raw text
is kept as the sole content — but the Output's output_structured field
is a default APPROVED review structure, not null. -/
theorem C6_parse_fallback (content : List Char)
    (h : ∀ s, extractJsonBlock content = some s → jsonLoads s = none) :
    reviewPhaseOutput content =
      ⟨"completed", content, some defaultReviewResult⟩ := by
  have hp : parse_review_result content = defaultReviewResult := by
    unfold parse_review_result
    cases he : extractJsonBlock content with
    | none => rfl
    | some s => simp [h s he]
  unfold reviewPhaseOutput
  rw [hp]

/-- Witness for C6 amended at a content with no fenced block. -/
theorem C6_parse_fallback_witness :
    reviewPhaseOutput plainReviewContent =
      ⟨"completed", plainReviewContent, some defaultReviewResult⟩ :=
  C6_parse_fallback plainReviewContent
    (fun s hs => by
      rw [show extractJsonBlock plainReviewContent = none from rfl] at hs
      exact Option.noConfusion hs)

/-- Auxiliary: find? over a list equals the head of its filtration. -/
theorem find_eq_head_filter {α : Type} (p : α → Bool) :
    ∀ l : List α, l.find? p = (l.filter p).head?
  | [] => rfl
  | a :: l => by
    rw [List.find?_cons, List.filter_cons]
    cases hpa : p a with
    | true => rfl
    | false => exact find_eq_head_filter p l

/-- Auxiliary: find? over a reversed list picks the last match. -/
theorem reverse_find_eq_getLast_filter {α : Type} (p : α → Bool) (l : List α) :
    l.reverse.find? p = (l.filter p).getLast? := by
  rw [find_eq_head_filter, List.filter_reverse, List.head?_reverse]

/-- Auxiliary: a left fold of list appends collects, as a set, the
union of the appended pieces. -/
theorem foldl_append_toFinset (f : SummaryOutput → List String) :
    ∀ (l : List SummaryOutput) (acc : List String),
      (l.foldl (fun acc o => acc ++ f o) acc).toFinset =
        acc.toFinset ∪ l.foldr (fun o s => (f o).toFinset ∪ s) ∅
  | [], acc => by simp
  | o :: l, acc => by
    rw [List.foldl_cons, List.foldr_cons, foldl_append_toFinset f l (acc ++ f o)]
    rw [List.toFinset_append]
    rw [Finset.union_assoc]

/-- C7 counterexample: files_affected is the concatenation of the
files_created lists, so a file touched by two Outputs appears twice —
the computed list is not a union (a union contains each element
once). -/
theorem C7_counterexample :
    (build_result_summary 1 [summaryDevOutput, summaryReviewOutput]).filesAffected
      = ["a.py", "a.py"]
    ∧ ¬ (build_result_summary 1
        [summaryDevOutput, summaryReviewOutput]).filesAffected.Nodup := by
  exact ⟨rfl, by decide⟩

/-- C7 amended: result_summary construction — total_tokens and
total_duration_ms are the sums over all Outputs with missing values
counted as 0; files_affected is the concatenation of files_created
across Outputs (it contains, as a set, exactly the union, but
duplicates are retained rather than deduplicated); review_status is
the structured status of the last review Output carrying a truthy
structured result (later iterations supersede earlier ones). -/
theorem C7_result_summary (iteration : Nat) (outputs : List SummaryOutput)
    (o : SummaryOutput) (j : Json)
    (hlast : (outputs.filter
        (fun o => o.phase == "review" && structTruthy o.outputStructured)).getLast?
      = some o)
    (hj : o.outputStructured = some j) :
    (build_result_summary iteration outputs).totalTokens
        = (outputs.map (fun o => o.tokensUsed.getD 0)).sum
    ∧ (build_result_summary iteration outputs).totalDurationMs
        = (outputs.map (fun o => o.durationMs.getD 0)).sum
    ∧ (build_result_summary iteration outputs).filesAffected.toFinset
        = outputs.foldr (fun o s => (o.filesCreated.getD []).toFinset ∪ s) ∅
    ∧ (build_result_summary iteration outputs).reviewStatus
        = jsonGet j (strL "status") := by
  refine ⟨rfl, rfl, ?_, ?_⟩
  · show (outputs.foldl (fun acc o => acc ++ o.filesCreated.getD []) []).toFinset = _
    rw [foldl_append_toFinset (fun o => o.filesCreated.getD []) outputs []]
    simp
  · show (match outputs.reverse.find?
        (fun o => o.phase == "review" && structTruthy o.outputStructured) with
      | some o => match o.outputStructured with
        | some j => jsonGet j (strL "status")
        | none => none
      | none => none) = jsonGet j (strL "status")
    rw [reverse_find_eq_getLast_filter, hlast]
    simp [hj]

/-- Witness for C7 amended on the concrete two-Output execution. -/
theorem C7_result_summary_witness :
    (build_result_summary 1 [summaryDevOutput, summaryReviewOutput]).totalTokens
        = ([summaryDevOutput, summaryReviewOutput].map
            (fun o => o.tokensUsed.getD 0)).sum
    ∧ (build_result_summary 1 [summaryDevOutput, summaryReviewOutput]).totalDurationMs
        = ([summaryDevOutput, summaryReviewOutput].map
            (fun o => o.durationMs.getD 0)).sum
    ∧ (build_result_summary 1
          [summaryDevOutput, summaryReviewOutput]).filesAffected.toFinset
        = [summaryDevOutput, summaryReviewOutput].foldr
            (fun o s => (o.filesCreated.getD []).toFinset ∪ s) ∅
    ∧ (build_result_summary 1 [summaryDevOutput, summaryReviewOutput]).reviewStatus
        = jsonGet (Json.jobj [(strL "status", Json.jstr (strL "APPROVED"))])
            (strL "status") :=
  C7_result_summary 1 [summaryDevOutput, summaryReviewOutput] summaryReviewOutput
    (Json.jobj [(strL "status", Json.jstr (strL "APPROVED"))]) rfl rfl

/-- C1 counterexample: on the development workflow with review
verdicts CHANGES_REQUESTED, CHANGES_REQUESTED, APPROVED and
max_iterations = 3, the execution completes after exactly one extra
development+review pair with final iteration 2 — not two extra pairs
with final iteration 3 as claimed, because the re-run is guarded by a
single if and the second review's verdict is never examined. -/
theorem C1_counterexample :
    (execute_workflow scenarioScript "development" 3).status = "completed"
    ∧ (execute_workflow scenarioScript "development" 3).iteration = 2
    ∧ ((execute_workflow scenarioScript "development" 3).outputs.filter
        (fun o => o.phase == "development")).length = 2
    ∧ ((execute_workflow scenarioScript "development" 3).outputs.filter
        (fun o => o.phase == "review")).length = 2
    ∧ ¬ ((execute_workflow scenarioScript "development" 3).iteration = 3) := by
  exact ⟨rfl, rfl, rfl, rfl, by decide⟩

/-- C1 amended: the review feedback loop performs at most one
automatic development+review re-run per execution.  For every
development workflow whose first review returns CHANGES_REQUESTED
with 1 < max_iterations, exactly 1 extra development+review Output
pair is created beyond the first, the final iteration equals 2
regardless of the later verdicts, and the execution ends with
status completed. -/
theorem C1_single_feedback_rerun (verdicts : Nat → String) (maxIter : Nat)
    (h0 : verdicts 0 = "CHANGES_REQUESTED") (h1 : 1 < maxIter) :
    execute_workflow
        ⟨Except.ok (), fun _ => Except.ok (), fun n => Except.ok (verdicts n)⟩
        "development" maxIter =
      { status := "completed", iteration := 2, maxIterations := maxIter,
        errorMessage := none,
        outputs := [⟨"architecture", 1, "completed"⟩,
          ⟨"development", 1, "completed"⟩, ⟨"review", 1, "completed"⟩,
          ⟨"development", 2, "completed"⟩, ⟨"review", 2, "completed"⟩] } := by
  simp [execute_workflow, get_workflow_phases, workflowsTable, List.lookup,
    runPhases, runPhaseStep, runArchM, runDevM, runReviewM, h0, h1]

/-- Witness for C1 amended at the scenario verdicts and
max_iterations 3. -/
theorem C1_single_feedback_rerun_witness :
    execute_workflow
        ⟨Except.ok (), fun _ => Except.ok (),
          fun n => Except.ok (scenarioVerdicts n)⟩
        "development" 3 =
      { status := "completed", iteration := 2, maxIterations := 3,
        errorMessage := none,
        outputs := [⟨"architecture", 1, "completed"⟩,
          ⟨"development", 1, "completed"⟩, ⟨"review", 1, "completed"⟩,
          ⟨"development", 2, "completed"⟩, ⟨"review", 2, "completed"⟩] } :=
  C1_single_feedback_rerun scenarioVerdicts 3 rfl (by decide)

/-- Auxiliary: an architecture-phase run changes neither the
iteration counter nor the bound, in both branches. -/
theorem runArchM_state (script : WorkflowScript) (st : LoopState) :
    (stepState (runArchM script st)).iteration = st.iteration ∧
    (stepState (runArchM script st)).maxIterations = st.maxIterations := by
  unfold runArchM stepState
  cases script.archOutcome <;> simp

/-- Auxiliary: a development-phase run changes neither the iteration
counter nor the bound, in both branches. -/
theorem runDevM_state (script : WorkflowScript) (st : LoopState) :
    (stepState (runDevM script st)).iteration = st.iteration ∧
    (stepState (runDevM script st)).maxIterations = st.maxIterations := by
  unfold runDevM stepState
  cases script.devOutcome st.devIdx <;> simp

/-- Auxiliary: a review-phase run changes neither the iteration
counter nor the bound, in both branches. -/
theorem runReviewM_state (script : WorkflowScript) (st : LoopState) :
    (reviewStepState (runReviewM script st)).iteration = st.iteration ∧
    (reviewStepState (runReviewM script st)).maxIterations = st.maxIterations := by
  unfold runReviewM reviewStepState
  cases script.reviewOutcome st.reviewIdx <;> simp

/-- Auxiliary: one loop step neither raises the iteration counter
above max_iterations (the increment is guarded by iteration <
max_iterations) nor changes the bound itself, in both the normal and
the raising branch. -/
theorem step_preserves_bound (script : WorkflowScript) (phase : String)
    (st : LoopState) (h : st.iteration ≤ st.maxIterations) :
    (stepState (runPhaseStep script phase st)).iteration
      ≤ (stepState (runPhaseStep script phase st)).maxIterations
    ∧ (stepState (runPhaseStep script phase st)).maxIterations
      = st.maxIterations := by
  by_cases ha : phase = "architecture"
  · simp only [runPhaseStep, if_pos ha]
    have := runArchM_state script st
    exact ⟨this.1 ▸ this.2 ▸ h, this.2⟩
  by_cases hd : phase = "development"
  · simp only [runPhaseStep, if_neg ha, if_pos hd]
    have := runDevM_state script st
    exact ⟨this.1 ▸ this.2 ▸ h, this.2⟩
  by_cases hr : phase = "review"
  · simp only [runPhaseStep, if_neg ha, if_neg hd, if_pos hr]
    cases hrev : runReviewM script st with
    | error e =>
      obtain ⟨m, st1⟩ := e
      have hs := runReviewM_state script st
      rw [hrev] at hs
      simp only [reviewStepState] at hs
      simp only [stepState]
      omega
    | ok r =>
      obtain ⟨st1, verdict⟩ := r
      have hs := runReviewM_state script st
      rw [hrev] at hs
      simp only [reviewStepState] at hs
      by_cases hv : verdict = "CHANGES_REQUESTED"
      · simp only [if_pos hv]
        by_cases hlt : st1.iteration < st1.maxIterations
        · simp only [if_pos hlt]
          cases hdev : runDevM script { st1 with iteration := st1.iteration + 1 } with
          | error e =>
            obtain ⟨m, st3⟩ := e
            have hds := runDevM_state script { st1 with iteration := st1.iteration + 1 }
            rw [hdev] at hds
            simp only [stepState] at hds ⊢
            omega
          | ok st3 =>
            have hds := runDevM_state script { st1 with iteration := st1.iteration + 1 }
            rw [hdev] at hds
            simp only [stepState] at hds
            cases hrev2 : runReviewM script st3 with
            | error e =>
              obtain ⟨m, st4⟩ := e
              have hrs := runReviewM_state script st3
              rw [hrev2] at hrs
              simp only [reviewStepState] at hrs
              dsimp only
              rw [hrev2]
              simp only [stepState]
              omega
            | ok r2 =>
              obtain ⟨st4, v2⟩ := r2
              have hrs := runReviewM_state script st3
              rw [hrev2] at hrs
              simp only [reviewStepState] at hrs
              dsimp only
              rw [hrev2]
              simp only [stepState]
              omega
        · simp only [if_neg hlt, stepState]
          omega
      · simp only [if_neg hv, stepState]
        omega
  · simp only [runPhaseStep, if_neg ha, if_neg hd, if_neg hr, stepState]
    exact ⟨h, trivial⟩

/-- Auxiliary: running any phase list keeps the iteration counter
within the bound, whether the loop returns or raises. -/
theorem runPhases_preserves_bound (script : WorkflowScript) :
    ∀ (phases : List String) (st : LoopState),
      st.iteration ≤ st.maxIterations →
      (stepState (runPhases script phases st)).iteration
        ≤ (stepState (runPhases script phases st)).maxIterations
      ∧ (stepState (runPhases script phases st)).maxIterations
        = st.maxIterations
  | [], st, h => ⟨h, rfl⟩
  | phase :: rest, st, h => by
    have hstep := step_preserves_bound script phase st h
    unfold runPhases
    cases hs : runPhaseStep script phase st with
    | error e =>
      rw [hs] at hstep
      exact ⟨hstep.1, hstep.2⟩
    | ok st1 =>
      rw [hs] at hstep
      have := runPhases_preserves_bound script rest st1 hstep.1
      exact ⟨this.1, this.2.trans hstep.2⟩

/-- C2: for every execution starting at iteration 1 with a positive
max_iterations, the iteration counter never exceeds max_iterations:
every single loop step preserves the bound (the increment happens only
when iteration < max_iterations), so it holds in every reachable
state, and in particular in the final state of execute_workflow. -/
theorem C2_iteration_bounded (script : WorkflowScript) (wt : String)
    (maxIter : Nat) (h : 1 ≤ maxIter) :
    (execute_workflow script wt maxIter).iteration ≤ maxIter
    ∧ (∀ (phase : String) (st : LoopState),
        st.iteration ≤ st.maxIterations →
        (stepState (runPhaseStep script phase st)).iteration
          ≤ (stepState (runPhaseStep script phase st)).maxIterations) := by
  constructor
  · have hb := runPhases_preserves_bound script (get_workflow_phases wt)
      ⟨1, maxIter, 0, 0, []⟩ h
    simp only [execute_workflow]
    cases hs : runPhases script (get_workflow_phases wt) ⟨1, maxIter, 0, 0, []⟩ with
    | ok st =>
      rw [hs] at hb
      simp only [stepState] at hb
      obtain ⟨h1, h2⟩ := hb
      have h2m : st.maxIterations = maxIter := h2
      show st.iteration ≤ maxIter
      omega
    | error e =>
      obtain ⟨m, st⟩ := e
      rw [hs] at hb
      simp only [stepState] at hb
      obtain ⟨h1, h2⟩ := hb
      have h2m : st.maxIterations = maxIter := h2
      show st.iteration ≤ maxIter
      omega
  · intro phase st hst
    exact (step_preserves_bound script phase st hst).1

/-- Witness for C2 at the concrete feedback-loop scenario. -/
theorem C2_iteration_bounded_witness :
    (execute_workflow scenarioScript "development" 3).iteration ≤ 3 :=
  (C2_iteration_bounded scenarioScript "development" 3 (by decide)).1

/-- C5 counterexample: a development-phase CLI timeout is not
surfaced as a phase failure — _cli_execute catches the TimeoutError
and substitutes the simulated fallback, so the execution completes
rather than failing. -/
theorem C5_counterexample :
    cli_execute true CliOutcome.timeout = Except.ok simulated_cli_execute
    ∧ (execute_workflow devTimeoutScript "quick_development" 3).status
        = "completed"
    ∧ ¬ ((execute_workflow devTimeoutScript "quick_development" 3).status
        = "failed") := by
  exact ⟨rfl, rfl, by decide⟩

/-- C5 amended: a process timeout in the architecture phase's CLI
invocation (_run_claude_cli_simple) is surfaced as a phase failure
that aborts the execution with status failed and is not retried; a
timeout in the development phase's _cli_execute is caught and replaced
by the deterministic simulated fallback, so the development phase
completes and the execution does not fail. -/
theorem C5_timeout_behaviour :
    run_claude_cli_simple true CliOutcome.timeout
        = Except.error "Claude CLI timed out"
    ∧ (execute_workflow archTimeoutScript "development" 3).status = "failed"
    ∧ (execute_workflow archTimeoutScript "development" 3).errorMessage
        = some "Claude CLI timed out"
    ∧ (execute_workflow archTimeoutScript "development" 3).outputs
        = [⟨"architecture", 1, "failed"⟩]
    ∧ cli_execute true CliOutcome.timeout = Except.ok simulated_cli_execute
    ∧ (execute_workflow devTimeoutScript "quick_development" 3).status
        = "completed" := by
  exact ⟨rfl, rfl, rfl, rfl, rfl, rfl⟩

/-- C8 counterexample: when the backend serving the architecture phase
is unavailable (the Claude CLI binary is absent),
_run_claude_cli_simple raises instead of falling back to simulation,
the architecture phase fails, and the execution ends failed — not
completed as claimed. -/
theorem C8_counterexample :
    run_claude_cli_simple false (CliOutcome.success [])
        = Except.error "Claude CLI not found"
    ∧ (execute_workflow archUnavailableScript "development" 3).status = "failed"
    ∧ ¬ ((execute_workflow archUnavailableScript "development" 3).status
        = "completed") := by
  exact ⟨rfl, rfl, by decide⟩

/-- C8 amended: backend unavailability in the provider-based call path
(_api_call: failed health check, or any provider exception) is
recovered locally via the deterministic simulated response and never
raises, and a missing CLI in the development phase's _cli_execute
likewise falls back to simulation; but the architecture phase invokes
the CLI through _run_claude_cli_simple, which raises when the CLI is
unavailable, failing the phase and ending the execution with status
failed. -/
theorem C8_unavailable_fallback (phase : String) (p : ProviderScript)
    (h : p.healthOk = false) :
    api_call phase p = (PhaseContent.simulated phase, none)
    ∧ (∀ msg : String,
        api_call phase { healthOk := true, callOutcome := Except.error msg }
          = (PhaseContent.simulated phase, none))
    ∧ (∀ o : CliOutcome, cli_execute false o = Except.ok simulated_cli_execute)
    ∧ (execute_workflow archUnavailableScript "development" 3).status
        = "failed" := by
  refine ⟨?_, ?_, ?_, rfl⟩
  · simp [api_call, h]
  · intro msg
    rfl
  · intro o
    rfl

/-- Witness for C8 amended at a review-phase provider whose health
check fails. -/
theorem C8_unavailable_fallback_witness :
    api_call "review" ⟨false, Except.ok ([], none)⟩
      = (PhaseContent.simulated "review", none) :=
  (C8_unavailable_fallback "review" ⟨false, Except.ok ([], none)⟩ rfl).1

/-- Auxiliary: splitting a newline-free text yields that text as the
single piece. -/
theorem splitOnNl_no_nl (l : List Char) (h : ¬ '\n' ∈ l) : splitOnNl l = [l] := by
  induction l with
  | nil => rfl
  | cons c rest ih =>
    have hc : ¬ c = '\n' := fun e => h (e ▸ List.mem_cons_self c rest)
    have hrest : splitOnNl rest = [rest] :=
      ih (fun hm => h (List.mem_cons_of_mem c hm))
    simp only [splitOnNl, if_neg hc, hrest]

/-- Auxiliary: splitting text of the form a ++ newline ++ b, with a
newline-free, peels off a as the first complete line. -/
theorem splitOnNl_append (a b : List Char) (h : ¬ '\n' ∈ a) :
    splitOnNl (a ++ '\n' :: b) = a :: splitOnNl b := by
  induction a with
  | nil => simp [splitOnNl]
  | cons c rest ih =>
    have hc : ¬ c = '\n' := fun e => h (e ▸ List.mem_cons_self c rest)
    have hrest := ih (fun hm => h (List.mem_cons_of_mem c hm))
    simp only [List.cons_append, splitOnNl, if_neg hc, List.append_eq, hrest]

/-- C9: for every input byte stream whose cleaned text is the single
complete result line followed by a newline and a partial trailing line
that contains no newline and is not valid JSON, the decoder produces
final content ok and exactly one structured event; the partial
trailing line never appears as a structured event. -/
theorem C9_pty_decoding (chunk p : List Char)
    (hclean : cleanText chunk = resultLine ++ '\n' :: p)
    (hnl : ¬ '\n' ∈ p)
    (hp : parseStreamJsonLine p = none) :
    decodeStream [chunk] = (strL "ok", [resultEvent]) := by
  have hline : ∀ q : List Char,
      processLine ⟨q, [], []⟩ resultLine = ⟨q, [resultEvent], [strL "ok"]⟩ :=
    fun q => rfl
  have hstep : processPtyOutput ⟨[], [], []⟩ chunk = ⟨p, [resultEvent], [strL "ok"]⟩ := by
    unfold processPtyOutput
    rw [hclean]
    dsimp only
    rw [List.nil_append, splitOnNl_append resultLine p (by decide),
      splitOnNl_no_nl p hnl]
    exact hline p
  unfold decodeStream
  rw [List.foldl_cons, List.foldl_nil, hstep]
  dsimp only
  rw [hp]
  simp only [ite_self]
  rfl

/-- Witness for C9 at the concrete chunk with ANSI color escapes, the
result line, and a partial trailing line. -/
theorem C9_pty_decoding_witness :
    decodeStream [ptyScenarioChunk] = (strL "ok", [resultEvent]) :=
  C9_pty_decoding ptyScenarioChunk ptyScenarioPartial rfl (by decide) rfl

end AgentRangers
